import Mathlib

/-!
Verification of the assembly text-analysis engine of this repository
(`foundry/data_source` and `tools/asm_ide`): the expression tokenizer
(`FormulaParser`), the macro table (`Macro`), the byte-layout resolver
(`AssemblyParser`) and the definition/reference index (`ReferenceFinder`).

Python strings are modelled as `List Char` (the sources only ever handle
ASCII assembly text).  Python dictionaries are modelled as association
lists with Python's semantics: updating an existing key keeps its
position, a new key is appended.  Python sets are modelled as
insertion-ordered lists without duplicates.  Fallible code returns
`Except String`; an uncaught Python exception is an `Except.error`
(the message text is a shortened form of the Python message).
Bounded recursion is expressed with explicit fuel so that every
definition reduces in the kernel; the fuel is always chosen at least as
large as the length of the scanned text, which the corresponding Python
loop never exceeds.
-/

abbrev Chars := List Char

/-- Convert a Lean string literal to the character-list representation. -/
def chars (s : String) : Chars := s.toList

/-- Python `str.startswith`. -/
def strStartsWith : Chars → Chars → Bool
  | _, [] => true
  | [], _ :: _ => false
  | c :: cs, p :: ps => c = p && strStartsWith cs ps

/-- Python `str.endswith`. -/
def strEndsWith (s p : Chars) : Bool := strStartsWith s.reverse p.reverse

/-- Python `pat in s` (substring containment). -/
def strContains : Chars → Chars → Bool
  | s, pat =>
    match s with
    | [] => strStartsWith [] pat
    | _ :: rest => strStartsWith s pat || strContains rest pat

def strReplaceAux (old new : Chars) : Nat → Chars → Chars
  | 0, s => s
  | fuel + 1, s =>
    match s with
    | [] => []
    | c :: rest =>
      if strStartsWith (c :: rest) old ∧ old ≠ [] then
        new ++ strReplaceAux old new fuel (rest.drop (old.length - 1))
      else
        c :: strReplaceAux old new fuel rest

/-- Python `str.replace(old, new)` for a non-empty `old`: left-to-right,
non-overlapping.  (The sources never call `replace` with an empty
pattern.) -/
def strReplace (s old new : Chars) : Chars := strReplaceAux old new s.length s

/-- Python `str.strip()` (strip leading and trailing whitespace). -/
def pyStrip (s : Chars) : Chars :=
  ((s.dropWhile Char.isWhitespace).reverse.dropWhile Char.isWhitespace).reverse

/-- Python `str.removeprefix`. -/
def removePrefix (s p : Chars) : Chars :=
  if strStartsWith s p then s.drop p.length else s

def strSplitOnAux (sep : Chars) : Nat → Chars → Chars → List Chars
  | 0, s, cur => [cur.reverse ++ s]
  | fuel + 1, s, cur =>
    match s with
    | [] => [cur.reverse]
    | c :: rest =>
      if strStartsWith (c :: rest) sep ∧ sep ≠ [] then
        cur.reverse :: strSplitOnAux sep fuel (rest.drop (sep.length - 1)) []
      else
        strSplitOnAux sep fuel rest (c :: cur)

/-- Python `str.split(sep)` for a non-empty separator (keeps empty parts). -/
def strSplitOn (s sep : Chars) : List Chars := strSplitOnAux sep (s.length + 1) s []

/-- Python `str.split(sep, maxsplit=1)`, returning the two halves (the
callers only use it on strings known to contain the separator). -/
def strSplitFirst (s sep : Chars) : Chars × Chars :=
  match strSplitOn s sep with
  | [] => (s, [])
  | [x] => (x, [])
  | x :: y :: rest => (x, List.intercalate sep (y :: rest))

def strSplitWsAux : Nat → Chars → List Chars
  | 0, _ => []
  | fuel + 1, s =>
    match s.dropWhile Char.isWhitespace with
    | [] => []
    | c :: rest =>
      ((c :: rest).takeWhile (fun d => ¬ d.isWhitespace)) ::
        strSplitWsAux fuel ((c :: rest).dropWhile (fun d => ¬ d.isWhitespace))

/-- Python `str.split()` (split on whitespace runs, dropping empties). -/
def strSplitWs (s : Chars) : List Chars := strSplitWsAux (s.length + 1) s

/-- Python `sep.join(parts)`. -/
def strJoin (sep : Chars) : List Chars → Chars
  | [] => []
  | [x] => x
  | x :: y :: rest => x ++ sep ++ strJoin sep (y :: rest)

/-- Python `" ".join(line.split())`, used to normalize whitespace when
storing a source line. -/
def normalizeWs (s : Chars) : Chars := strJoin [' '] (strSplitWs s)

/-- Python `str.upper()` (ASCII). -/
def strUpper (s : Chars) : Chars := s.map Char.toUpper

/-- Python `str.isnumeric()` for ASCII text: non-empty and all digits. -/
def pyIsNumeric (s : Chars) : Bool := s ≠ [] && s.all Char.isDigit

/-- Numeric value of a decimal digit string. -/
def decVal (s : Chars) : Nat := s.foldl (fun acc c => 10 * acc + (c.toNat - 48)) 0

/-- Both `foundry/data_source.strip_comment` and
`tools/asm_ide/util.strip_comment`: cut the line at the first `;` and
strip surrounding whitespace. -/
def stripComment (line : Chars) : Chars :=
  match strSplitOn line [';'] with
  | [] => pyStrip line
  | before :: rest => if rest = [] then pyStrip line else pyStrip before

theorem strReplaceAux_of_not_contains (old new : Chars) (fuel : Nat) (s : Chars)
    (h : strContains s old = false) : strReplaceAux old new fuel s = s := by
  induction fuel generalizing s with
  | zero => rfl
  | succ fuel ih =>
    match s with
    | [] => rfl
    | c :: rest =>
      rw [strContains] at h
      simp only [Bool.or_eq_false_iff] at h
      rw [strReplaceAux]
      rw [h.1, ih rest h.2]
      simp

theorem strReplace_of_not_contains (s old new : Chars) (h : strContains s old = false) :
    strReplace s old new = s :=
  strReplaceAux_of_not_contains old new s.length s h

theorem strStartsWith_head (s : Chars) (c : Char) (cs : Chars)
    (h : strStartsWith s (c :: cs) = true) : strStartsWith s [c] = true := by
  match s with
  | [] => exact absurd h (by simp [strStartsWith])
  | d :: rest =>
    simp only [strStartsWith, Bool.and_eq_true, decide_eq_true_eq] at h ⊢
    exact ⟨h.1, trivial⟩

theorem strContains_head (s : Chars) (c : Char) (cs : Chars)
    (h : strContains s [c] = false) : strContains s (c :: cs) = false := by
  induction s with
  | nil => simp [strContains, strStartsWith]
  | cons d rest ih =>
    rw [strContains] at h ⊢
    simp only [Bool.or_eq_false_iff] at h ⊢
    refine ⟨?_, ih h.2⟩
    cases hsw : strStartsWith (d :: rest) (c :: cs) with
    | false => rfl
    | true => exact absurd (strStartsWith_head _ _ _ hsw) (by simp [h.1])

/-- Source `foundry/data_source/__init__.py::AsmPosition`: a dataclass
with three required fields (`file`, `line_no`, `size`; none has a
default value). -/
structure AsmPosition where
  file : Chars
  lineNo : Nat
  size : Int
deriving DecidableEq, Repr

/-- Source `foundry/data_source/macro.py::Macro`: macro name and the
stored (comment-stripped) template lines, including the
`.macro`/`.endm` delimiter lines. -/
structure Macro where
  name : Chars
  position : AsmPosition
  lines : List Chars
deriving DecidableEq, Repr

/-- Source `Macro.macro_on_line`: empty string when the line holds no
`.macro`, otherwise the line with `.macro` removed and stripped. -/
def Macro.macroOnLine (line : Chars) : Chars :=
  if ¬ strContains line (chars ".macro") then []
  else pyStrip (strReplace line (chars ".macro") [])

def Macro.parseMacroGo (acc : List Chars) : List Chars → Except String (List Chars)
  | [] => .error "ValueError: Ran out of lines in macro definition"
  | l :: ls =>
    let sl := stripComment l
    if strContains sl (chars ".endm") then .ok (acc ++ [sl])
    else Macro.parseMacroGo (acc ++ [sl]) ls

/-- Source `Macro.parse_macro`: consume the `NAME .macro` line and every
following line up to and including a `.endm` line, storing each line
comment-stripped.  (The source calls the comment stripper by the name
`_strip_comment`; it is the module's `strip_comment`.) -/
def Macro.parseMacro (lines : List Chars) (pos : AsmPosition) : Except String Macro :=
  match lines with
  | [] => .error "IndexError: pop from empty list"
  | first :: rest =>
    let firstLine := stripComment first
    let name := Macro.macroOnLine firstLine
    (Macro.parseMacroGo [firstLine] rest).map (fun ls => ⟨name, pos, ls⟩)

/-- The inner loop of `Macro.expand`: replace each `\N` (1-indexed) by
the Nth argument, in argument order, one `str.replace` per argument. -/
def substArgs (args : List Chars) (line : Chars) : Chars :=
  args.enum.foldl
    (fun acc p => strReplace acc ('\\' :: (Nat.repr (p.1 + 1)).toList) p.2) line

def Macro.expandGo (args : List Chars) : List Chars → List Chars
  | [] => []
  | l :: ls =>
    if l = [] then Macro.expandGo args ls
    else substArgs args l :: Macro.expandGo args ls

/-- Source `Macro.expand`: for every stored line, skip it when empty,
otherwise textually substitute the positional arguments into it. -/
def Macro.expand (m : Macro) (args : List Chars) : List Chars :=
  Macro.expandGo args m.lines

theorem substArgs_of_no_backslash (args : List Chars) (line : Chars)
    (h : strContains line [Char.ofNat 92] = false) : substArgs args line = line := by
  unfold substArgs
  generalize args.enum = ps
  induction ps with
  | nil => rfl
  | cons p rest ih =>
    simp only [List.foldl_cons]
    rw [strReplace_of_not_contains _ _ _ (strContains_head _ _ _ h)]
    exact ih

theorem Macro.expandGo_of_no_empty (args : List Chars) (ls : List Chars)
    (h : ∀ l ∈ ls, l ≠ []) : Macro.expandGo args ls = ls.map (substArgs args) := by
  induction ls with
  | nil => rfl
  | cons l rest ih =>
    rw [Macro.expandGo, if_neg (by simpa using h l (by simp)), List.map_cons]
    rw [ih (fun x hx => h x (by simp [hx]))]

/-- Source `foundry/data_source/__init__.py::byte_length_of_number_string`.
The decimal branch of the source is `return ceil(log(1 + value, 256))`
with `value` still the digit STRING (the function never converts it
with `int()`), so CPython raises
`TypeError: unsupported operand type(s) for +: 'int' and 'str'` on the
addition `1 + value`, before `log` runs; the model stops with that
error there. -/
def byteLengthOfNumberString (value : Chars) : Except String Nat :=
  let v := removePrefix value (chars "-")
  if strStartsWith v (chars "%") then .ok ((removePrefix v (chars "%")).length / 8)
  else if strStartsWith v (chars "$") then .ok ((removePrefix v (chars "$")).length / 2)
  else if strStartsWith v (chars "'") then
    if v.count '\'' = 2 then .ok (v.length - 2)
    else .error "AssertionError: apostrophe count"
  else if pyIsNumeric v then .error "TypeError: unsupported operand types int and str"
  else .error "ValueError: Unexpected value"

/-- Source `foundry/data_source/formula_parser.py::LeafType`.  The
enumeration defines `LISTING`; it has no member named `LIST`. -/
inductive LeafType
  | ROOT | FUNCTION_NAME | SYMBOL | NUMBER | PARENS | FORMULA
  | FUNCTION_PARAMS | OPERATOR | LISTING | MACRO_PARAM
deriving DecidableEq, Repr

/-- Source `formula_parser.py::Leaf`, as a pure tree (the parent
back-references of the source are represented in the parser's arena
model further below; `_count_leaf_byte_size` only walks children). -/
inductive Leaf where
  | mk (value : Chars) (leafType : LeafType) (leaves : List Leaf)

def symbolByteSizeError : String := "ValueError: no byte size of Symbol"

def macroParamByteSizeError : String := "ValueError: no byte size of Macro Param"

mutual

/-- Source `FormulaParser._count_leaf_byte_size`. -/
def countLeafByteSize : Leaf → Except String Nat
  | .mk v t ls =>
    match t with
    | .ROOT | .FUNCTION_NAME | .PARENS | .FUNCTION_PARAMS =>
      match ls with
      | [l] => countLeafByteSize l
      | _ => .error "AssertionError: exactly one child expected"
    | .SYMBOL => .error symbolByteSizeError
    | .NUMBER =>
      match ls with
      | [] => byteLengthOfNumberString v
      | _ => .error "AssertionError: no children expected"
    | .FORMULA =>
      if ls.length < 2 then .error "AssertionError: at least two children expected"
      else (countLeafByteSizeList ls).map (fun ns => ns.foldl Nat.max 0)
    | .OPERATOR =>
      match ls with
      | [] => .ok 0
      | _ => .error "AssertionError: no children expected"
    | .LISTING =>
      if ls.length < 2 then .error "AssertionError: at least two children expected"
      else (countLeafByteSizeList ls).map (fun ns => ns.foldl (· + ·) 0)
    | .MACRO_PARAM => .error macroParamByteSizeError

def countLeafByteSizeList : List Leaf → Except String (List Nat)
  | [] => .ok []
  | l :: ls =>
    match countLeafByteSize l with
    | .error e => .error e
    | .ok n =>
      match countLeafByteSizeList ls with
      | .error e => .error e
      | .ok ns => .ok (n :: ns)

end

def c9MacroLines : List Chars := [chars "M .macro", chars "", chars ".endm"]

def c9Pos : AsmPosition := ⟨[], 0, 0⟩

/-- C9 counterexample: a stored macro whose template contains an empty
(comment-stripped) line.  `Macro.expand` skips empty stored lines, so
the expansion of a 3-line template has only 2 lines: the stored template
lines are not returned with their line count preserved, contradicting
the claim. -/
theorem c9_counterexample :
    (Macro.parseMacro c9MacroLines c9Pos).map (fun m => (m.lines, Macro.expand m [])) =
      .ok ([chars "M .macro", chars "", chars ".endm"],
           [chars "M .macro", chars ".endm"]) ∧
    ([chars "M .macro", chars "", chars ".endm"] : List Chars).length ≠
      ([chars "M .macro", chars ".endm"] : List Chars).length :=
  ⟨rfl, by decide⟩

/-- C9 (amended): for every stored macro all of whose stored template
lines are non-empty, `Macro.expand` returns exactly the template lines
in their original order, each with the positional-argument substitution
applied (so the line count and line order are preserved); a line with no
backslash at all — in particular a `.macro`/`.endm` delimiter line
without parameter tokens — is returned verbatim.  The source of
`Macro.expand` consults no macro table, so no recursive expansion of
nested invocations happens. -/
theorem c9_expand_amended (m : Macro) (args : List Chars)
    (h : ∀ l ∈ m.lines, l ≠ []) :
    Macro.expand m args = m.lines.map (substArgs args) ∧
    (Macro.expand m args).length = m.lines.length ∧
    (∀ l, strContains l ['\\'] = false → substArgs args l = l) := by
  refine ⟨Macro.expandGo_of_no_empty args m.lines h, ?_, ?_⟩
  · rw [Macro.expand, Macro.expandGo_of_no_empty args m.lines h]
    simp
  · intro l hl
    exact substArgs_of_no_backslash args l hl

def c9WitnessMacro : Macro :=
  ⟨chars "MusSeg", ⟨[], 0, 0⟩,
   [chars "MusSeg .macro", chars ".byte \\1", chars ".endm"]⟩

/-- Witness for the amended C9 at a concrete macro and argument list. -/
theorem c9_amended_witness :
    Macro.expand c9WitnessMacro [chars "$FF"] =
      c9WitnessMacro.lines.map (substArgs [chars "$FF"]) :=
  (c9_expand_amended c9WitnessMacro [chars "$FF"] (by decide)).1

theorem byteLength_hex (ds : Chars) :
    byteLengthOfNumberString ('$' :: ds) = .ok (ds.length / 2) := by
  unfold byteLengthOfNumberString
  simp [removePrefix, strStartsWith, chars]

theorem byteLength_binary (bs : Chars) :
    byteLengthOfNumberString ('%' :: bs) = .ok (bs.length / 8) := by
  unfold byteLengthOfNumberString
  simp [removePrefix, strStartsWith, chars]

theorem byteLength_decimal (ds : Chars) (h1 : ds ≠ []) (h2 : ds.all Char.isDigit = true) :
    byteLengthOfNumberString ds = .error "TypeError: unsupported operand types int and str" := by
  match ds, h1 with
  | d :: tail, _ =>
    have hd : d.isDigit = true := by
      simp only [List.all_cons, Bool.and_eq_true] at h2
      exact h2.1
    have hm : d ≠ '-' := by rintro rfl; exact absurd hd (by decide)
    have hp : d ≠ '%' := by rintro rfl; exact absurd hd (by decide)
    have hh : d ≠ '$' := by rintro rfl; exact absurd hd (by decide)
    have hq : d ≠ '\'' := by rintro rfl; exact absurd hd (by decide)
    unfold byteLengthOfNumberString
    simp [removePrefix, strStartsWith, chars, hm, hp, hh, hq, pyIsNumeric, h2]

theorem byteLength_char (c : Char) (hc : c ≠ '\'') :
    byteLengthOfNumberString ['\'', c, '\''] = .ok 1 := by
  unfold byteLengthOfNumberString
  simp [removePrefix, strStartsWith, chars, List.count_cons, hc]

/-- C7 (code evaluation): `_count_leaf_byte_size` behaves as the claim
states for every clause EXCEPT decimal literals: a `$`-hex Number leaf
contributes one byte per 2 hex digits, a `%`-binary leaf one byte per 8
bits, a quoted character literal 1 byte, a Formula node the maximum of
its children's sizes, a Listing node their sum, and Symbol and
MacroParam leaves raise a resolution error — but sizing ANY decimal
Number leaf raises `TypeError` (the source adds `1 + value` with
`value` still a str), instead of the claimed minimum byte count that
represents the value. -/
theorem c7_byte_size_of :
    (∀ ds : Chars, countLeafByteSize (.mk ('$' :: ds) .NUMBER []) = .ok (ds.length / 2)) ∧
    (∀ bs : Chars, countLeafByteSize (.mk ('%' :: bs) .NUMBER []) = .ok (bs.length / 8)) ∧
    (∀ ds : Chars, ds ≠ [] → ds.all Char.isDigit = true →
      countLeafByteSize (.mk ds .NUMBER []) =
        .error "TypeError: unsupported operand types int and str") ∧
    (∀ c : Char, c ≠ '\'' → countLeafByteSize (.mk ['\'', c, '\''] .NUMBER []) = .ok 1) ∧
    (∀ v ls, countLeafByteSize (.mk v .SYMBOL ls) = .error symbolByteSizeError) ∧
    (∀ v ls, countLeafByteSize (.mk v .MACRO_PARAM ls) = .error macroParamByteSizeError) ∧
    (∀ v cs ns, 2 ≤ cs.length → countLeafByteSizeList cs = .ok ns →
      countLeafByteSize (.mk v .FORMULA cs) = .ok (ns.foldl Nat.max 0)) ∧
    (∀ v cs ns, 2 ≤ cs.length → countLeafByteSizeList cs = .ok ns →
      countLeafByteSize (.mk v .LISTING cs) = .ok (ns.foldl (· + ·) 0)) := by
  refine ⟨?_, ?_, ?_, ?_, ?_, ?_, ?_, ?_⟩
  · intro ds
    rw [countLeafByteSize]
    exact byteLength_hex ds
  · intro bs
    rw [countLeafByteSize]
    exact byteLength_binary bs
  · intro ds h1 h2
    rw [countLeafByteSize]
    exact byteLength_decimal ds h1 h2
  · intro c hc
    rw [countLeafByteSize]
    exact byteLength_char c hc
  · intro v ls
    rw [countLeafByteSize]
  · intro v ls
    rw [countLeafByteSize]
  · intro v cs ns h1 h2
    rw [countLeafByteSize]
    rw [if_neg (by omega), h2]
    rfl
  · intro v cs ns h1 h2
    rw [countLeafByteSize]
    rw [if_neg (by omega), h2]
    rfl

/-- Witness for C7: the `TypeError` at the failing decimal leaf `255`,
and the claim's true clauses at a concrete character literal and
concrete Formula and Listing nodes. -/
theorem c7_witness :
    countLeafByteSize (.mk (chars "255") .NUMBER []) =
      .error "TypeError: unsupported operand types int and str" ∧
    countLeafByteSize (.mk (chars "'A'") .NUMBER []) = .ok 1 ∧
    countLeafByteSize (.mk [] .FORMULA
      [.mk (chars "$01") .NUMBER [], .mk (chars "+") .OPERATOR [],
       .mk (chars "$1234") .NUMBER []]) = .ok 2 ∧
    countLeafByteSize (.mk [] .LISTING
      [.mk (chars "$01") .NUMBER [], .mk (chars "$1234") .NUMBER []]) = .ok 3 :=
  ⟨c7_byte_size_of.2.2.1 (chars "255") (by decide) (by decide),
   c7_byte_size_of.2.2.2.1 'A' (by decide),
   c7_byte_size_of.2.2.2.2.2.2.1 [] _ [1, 0, 2] (by decide) rfl,
   c7_byte_size_of.2.2.2.2.2.2.2 [] _ [1, 2] (by decide) rfl⟩

/-- Source `foundry/data_source/__init__.py::OPERATORS`
(`"+,-,*,/,%,^,&,|,~,<<,>>".split(",")`). -/
def OPERATORS : List Chars :=
  (["+", "-", "*", "/", "%", "^", "&", "|", "~", "<<", ">>"]).map chars

/-- Source `foundry/data_source/__init__.py::COMPARATORS`. -/
def COMPARATORS : List Chars :=
  (["=", "!=", "!", "<", ">", "<=", ">="]).map chars

/-- Source `formula_parser.py::_ParseState`. -/
inductive ParseState
  | NEUTRAL | SYMBOL | BINARY | DECIMAL | HEXADECIMAL | NUMERAL
  | FUNCTION_PARAMS | PARENS | OPERATOR | MACRO_PARAM | COMMENT | END
deriving DecidableEq, Repr

/-- Source `formula_parser.py::_is_operator`: member of the operator set
(single-character operators only can match one character) or one of the
shift characters. -/
def isOperatorChar (c : Char) : Bool := OPERATORS.contains [c] || c = '<' || c = '>'

/-- Source `_is_numeral_start` (`_NUMERAL_START_CHARS = "$%+-"`). -/
def isNumeralStart (c : Char) : Bool := c = '$' || c = '%' || c = '+' || c = '-' || c.isDigit

/-- Source `_is_symbol_start`. -/
def isSymbolStart (c : Char) : Bool := c.isAlpha || c = '_'

/-- Source `_is_symbol_char`. -/
def isSymbolChar (c : Char) : Bool := c.isAlphanum || c = '_'

/-- Source `_is_hexadecimal_end`: not a digit and not a hex letter. -/
def isHexEnd (c : Char) : Bool :=
  ¬ c.isDigit && ¬ (c.toUpper ∈ ['A', 'B', 'C', 'D', 'E', 'F'])

/-- One node of the `Leaf` tree, in arena form: the parent
back-reference and the child list hold arena indices.  This mirrors the
mutable parent-linked `Leaf` objects of the source. -/
structure PNode where
  value : Chars
  leafType : LeafType
  parent : Option Nat
  children : List Nat
deriving DecidableEq, Repr

/-- The mutable state of a `FormulaParser` instance: the rest of the
input line, the collected `parts`, the current machine state, the
`_last_char_was_comma` flag, the node arena (index 0 is the Root) and
the index of `_current_leaf`.  The per-category token lists
(`_numbers`, `_operators`, ...) of the source are write-only (their one
reader, `_last_part_was_operator`, is never called) and are omitted. -/
structure FPState where
  line : Chars
  parts : List Chars
  pstate : ParseState
  lastCharWasComma : Bool
  nodes : List PNode
  cur : Nat
deriving DecidableEq, Repr

def FPState.initial (line : Chars) : FPState :=
  { line := line, parts := [], pstate := .NEUTRAL, lastCharWasComma := true,
    nodes := [⟨[], .ROOT, none, []⟩], cur := 0 }

def FPState.node (s : FPState) (i : Nat) : PNode := s.nodes.getD i ⟨[], .ROOT, none, []⟩

def FPState.curNode (s : FPState) : PNode := s.node s.cur

def FPState.setNode (s : FPState) (i : Nat) (n : PNode) : FPState :=
  { s with nodes := s.nodes.set i n }

/-- Source `FormulaParser._new_leaf`. -/
def FPState.newLeaf (s : FPState) (v : Chars) (t : LeafType) : FPState :=
  let nid := s.nodes.length
  let s1 := s.setNode s.cur { s.curNode with children := s.curNode.children ++ [nid] }
  { s1 with nodes := s1.nodes ++ [⟨v, t, some s.cur, []⟩], cur := nid }

/-- Source `FormulaParser._skip`. -/
def FPState.skip (s : FPState) : FPState :=
  match s.line with
  | [] => s
  | c :: rest =>
    { s with line := rest,
             lastCharWasComma := if c.isWhitespace then s.lastCharWasComma else c = ',' }

/-- Source `FormulaParser._take` (the current buffer is the current
leaf's value). -/
def FPState.take (s : FPState) : FPState :=
  match s.line with
  | [] => s.skip
  | c :: _ => (s.setNode s.cur { s.curNode with value := s.curNode.value ++ [c] }).skip

/-- Source `FormulaParser._save_buffer` (only the shared `parts` list is
observable, see `FPState`). -/
def FPState.saveBuffer (s : FPState) : FPState :=
  { s with parts := s.parts ++ [s.curNode.value] }

/-- Source `FormulaParser._insert_parent`. -/
def FPState.insertParent (s : FPState) (curLeafId : Nat) (t : LeafType) :
    Except String FPState :=
  match (s.node curLeafId).parent with
  | none => .error "AttributeError: root has no parent"
  | some oldParent =>
    if (s.node oldParent).children.getLast? ≠ some curLeafId then
      .error "AssertionError: current leaf is not the last child"
    else
      let nid := s.nodes.length
      let s1 := s.setNode oldParent
        { s.node oldParent with
          children := ((s.node oldParent).children ++ [nid]).erase curLeafId }
      let s2 := { s1 with
        nodes := s1.nodes ++ [(⟨[], t, some oldParent, [curLeafId]⟩ : PNode)] }
      let s3 := s2.setNode curLeafId { s2.node curLeafId with parent := some nid }
      .ok { s3 with cur := nid }

/-- Source `FormulaParser._maybe_insert_parent`. -/
def FPState.maybeInsertParent (s : FPState) (t : LeafType) : Except String FPState :=
  if s.curNode.leafType = t then .ok s
  else if t = .LISTING ∧ s.curNode.leafType = .FORMULA then
    match s.curNode.parent with
    | none => .error "AssertionError: no parent"
    | some p =>
      if (s.node p).leafType = .LISTING then .ok { s with cur := p }
      else s.insertParent s.cur t
  else
    match s.curNode.children.getLast? with
    | none => .error "AssertionError: no children"
    | some lastChild => s.insertParent lastChild t

/-- Source `FormulaParser._end_symbol` (`char = none` models the default
empty-string argument used at end of input). -/
def FPState.endSymbol (s : FPState) (ch : Option Char) : Except String FPState :=
  if ch = some '(' then
    .ok ({ (s.setNode s.cur { s.curNode with leafType := .FUNCTION_NAME }).saveBuffer
           with pstate := .NEUTRAL })
  else
    match s.curNode.parent with
    | none => .error "AssertionError: no parent"
    | some p => .ok { s.saveBuffer with cur := p, pstate := .NEUTRAL }

/-- Source `FormulaParser._end_number`. -/
def FPState.endNumber (s : FPState) : Except String FPState :=
  match s.curNode.parent with
  | none => .error "AssertionError: no parent"
  | some p => .ok { s.saveBuffer with cur := p, pstate := .NEUTRAL }

/-- Source `FormulaParser._end_operator`. -/
def FPState.endOperator (s : FPState) : Except String FPState :=
  match s.curNode.parent with
  | none => .error "AssertionError: no parent"
  | some p => .ok { s.saveBuffer with cur := p, pstate := .NEUTRAL }

/-- Source `FormulaParser._end_macro_param`. -/
def FPState.endMacroParam (s : FPState) : Except String FPState :=
  match s.curNode.parent with
  | none => .error "AssertionError: no parent"
  | some p => .ok { s.saveBuffer with cur := p, pstate := .NEUTRAL }

/-- The parent-chain walk of the close-parenthesis branch of
`_do_neutral`: find the nearest enclosing FunctionParams or Parens node
and return the index the cursor moves to. -/
def FPState.findParenTarget (s : FPState) : Nat → Nat → Except String Nat
  | _, 0 => .error "RecursionError"
  | i, fuel + 1 =>
    if (s.node i).leafType = .ROOT then
      .error "ValueError: no leaf with opening parenthesis found"
    else if (s.node i).leafType = .FUNCTION_PARAMS then
      match (s.node i).parent with
      | none => .error "AssertionError: no parent"
      | some p =>
        match (s.node p).parent with
        | none => .error "AssertionError: no grandparent"
        | some pp => .ok pp
    else if (s.node i).leafType = .PARENS then
      match (s.node i).parent with
      | none => .error "AssertionError: no parent"
      | some p => .ok p
    else
      match (s.node i).parent with
      | none => .error "AssertionError: no parent"
      | some p => FPState.findParenTarget s p fuel

/-- Source `FormulaParser._do_neutral`. -/
def FPState.doNeutral (s : FPState) (c : Char) : Except String FPState :=
  if isSymbolStart c then .ok { s with pstate := .SYMBOL }
  else if isNumeralStart c then .ok { s with pstate := .NUMERAL }
  else if c = '(' then
    if s.curNode.leafType = .FUNCTION_NAME then .ok { s with pstate := .FUNCTION_PARAMS }
    else .ok { s with pstate := .PARENS }
  else if c = ')' then
    (s.findParenTarget s.cur (s.nodes.length + 1)).map
      (fun target => { FPState.skip { s with cur := target } with pstate := .NEUTRAL })
  else if c = ';' then .ok { s with pstate := .COMMENT }
  else if isOperatorChar c then .ok { s with pstate := .OPERATOR }
  else if c = '\\' then .ok { s with pstate := .MACRO_PARAM }
  else if c.isWhitespace then .ok s.skip
  else if c = ',' then (s.maybeInsertParent .LISTING).map FPState.skip
  else .error "ValueError: unexpected character"

/-- Source `FormulaParser._do_numeral`.  For `+`, `-` and `%` (the
members of `_OPERATOR_NUMERAL_OVERLAY`) the source first evaluates
`self._current_leaf.leaf_type != LeafType.LIST`; `LeafType` defines no
member `LIST` (the listing member is `LISTING`), so CPython raises
`AttributeError` before anything else in this branch happens. -/
def FPState.doNumeral (s : FPState) (c : Char) : Except String FPState :=
  if c = '+' ∨ c = '-' ∨ c = '%' then
    .error "AttributeError: LIST"
  else if c = '$' then .ok { s with pstate := .HEXADECIMAL }
  else if c.isDigit then .ok { s with pstate := .DECIMAL }
  else .ok { s with pstate := .NEUTRAL }

/-- Source `FormulaParser._do_symbol`. -/
def FPState.doSymbol (s : FPState) (c : Char) : Except String FPState :=
  if ¬ isSymbolChar c then s.endSymbol (some c)
  else
    let s1 := if s.curNode.leafType ≠ .SYMBOL then s.newLeaf [] .SYMBOL else s
    .ok s1.take

/-- Source `FormulaParser._do_operator`. -/
def FPState.doOperator (s : FPState) (c : Char) : Except String FPState :=
  if s.curNode.leafType ≠ .OPERATOR then
    (s.maybeInsertParent .FORMULA).map (fun s1 => s1.newLeaf [] .OPERATOR)
  else if OPERATORS.contains (s.curNode.value ++ [c]) then .ok s.take
  else if OPERATORS.contains s.curNode.value then s.endOperator
  else if c.isWhitespace then .ok s.skip
  else if s.curNode.value = [] ∧ c = '>' then .ok s.take
  else .error "ValueError: unexpected operator character"

/-- Source `FormulaParser._do_binary`. -/
def FPState.doBinary (s : FPState) (c : Char) : Except String FPState :=
  if c = '%' then
    if s.curNode.leafType = .NUMBER then
      .error "ValueError: binary number already started"
    else .ok s.take
  else if c ≠ '0' ∧ c ≠ '1' then s.endNumber
  else .ok s.take

/-- Source `FormulaParser._do_decimal`. -/
def FPState.doDecimal (s : FPState) (c : Char) : Except String FPState :=
  let s1 := if s.curNode.leafType ≠ .NUMBER then s.newLeaf [] .NUMBER else s
  if c.isDigit then .ok s1.take else s1.endNumber

/-- Source `FormulaParser._do_hexadecimal`. -/
def FPState.doHexadecimal (s : FPState) (c : Char) : Except String FPState :=
  if c = '$' then
    if s.curNode.value ≠ [] ∧ s.curNode.value.getLast? = some '$' then
      .error "ValueError: hexadecimal number already started"
    else
      let s1 := if s.curNode.leafType ≠ .NUMBER then s.newLeaf [] .NUMBER else s
      .ok s1.take
  else if isHexEnd c then s.endNumber
  else .ok s.take

/-- Source `FormulaParser._do_function_params`. -/
def FPState.doFunctionParams (s : FPState) : Except String FPState :=
  .ok { (s.newLeaf (chars "()") .FUNCTION_PARAMS).skip with pstate := .NEUTRAL }

/-- Source `FormulaParser._do_parens`. -/
def FPState.doParens (s : FPState) : Except String FPState :=
  .ok { (s.newLeaf (chars "()") .PARENS).skip with pstate := .NEUTRAL }

/-- Source `FormulaParser._do_macro_param`. -/
def FPState.doMacroParam (s : FPState) (c : Char) : Except String FPState :=
  if s.curNode.leafType = .MACRO_PARAM then
    if c.isDigit ∧ c ≠ '0' then s.take.endMacroParam
    else .error "AssertionError: expected digit 1-9"
  else
    if c = '\\' then .ok (s.newLeaf [] .MACRO_PARAM).take
    else .error "AssertionError: expected macro param start"

/-- One iteration of the `while` loop in `FormulaParser.parse`:
dispatch on the current state (the state-function lookup table). -/
def FPState.step (s : FPState) : Except String FPState :=
  match s.line with
  | [] => .ok s
  | c :: _ =>
    match s.pstate with
    | .NEUTRAL => s.doNeutral c
    | .SYMBOL => s.doSymbol c
    | .NUMERAL => s.doNumeral c
    | .BINARY => s.doBinary c
    | .DECIMAL => s.doDecimal c
    | .HEXADECIMAL => s.doHexadecimal c
    | .FUNCTION_PARAMS => s.doFunctionParams
    | .PARENS => s.doParens
    | .OPERATOR => s.doOperator c
    | .MACRO_PARAM => s.doMacroParam c
    | .COMMENT => .ok { s with pstate := .END }
    | .END => .error "ValueError: no state matching"

def FPState.loop : Nat → FPState → Except String FPState
  | 0, _ => .error "fuel exhausted"
  | fuel + 1, s =>
    if s.line = [] ∨ s.pstate = .END then .ok s
    else
      match s.step with
      | .error e => .error e
      | .ok s1 => FPState.loop fuel s1

/-- Source `FormulaParser.parse`: run the state machine over the line,
commit a dangling symbol or number token at end of input, and require a
valid end state. -/
def fpParse (line : Chars) : Except String FPState :=
  match FPState.loop (line.length * 8 + 16) (FPState.initial line) with
  | .error e => .error e
  | .ok s =>
    match
      (if s.pstate = .SYMBOL then s.endSymbol none
       else if s.pstate = .BINARY ∨ s.pstate = .DECIMAL ∨ s.pstate = .HEXADECIMAL then
         s.endNumber
       else .ok s) with
    | .error e => .error e
    | .ok s1 =>
      if s1.pstate = .END ∨ s1.pstate = .NEUTRAL then .ok s1
      else .error "ValueError: Ran out of characters"

/-- C8 (code evaluation): parsing an expression whose numeral starts
with a leading sign — including the repo's own test inputs
`"-$01, $01"` (test_byte_listing_neg_at_start) and
`"(TimeBonus_Score - 1)"` (test_paren_formula) — raises, because
`_do_numeral` reads the nonexistent enum member `LeafType.LIST`. -/
theorem c8_signed_numeral_crashes :
    fpParse (chars "-$01, $01") = .error "AttributeError: LIST" ∧
    fpParse (chars "(TimeBonus_Score - 1)") = .error "AttributeError: LIST" :=
  ⟨rfl, rfl⟩

/-- Modelled from the spec: `BYTE_DIRECTIVE` is imported into
`assembly_parser.py` from the package module, where it is not defined in
`src/`; the spec's directive vocabulary and the source's byte-counting
branches (which treat `.db` separately) fix it as `".byte"`. -/
def BYTE_DIRECTIVE : Chars := chars ".byte"

/-- Modelled from the spec: `WORD_DIRECTIVE`, analogously `".word"`. -/
def WORD_DIRECTIVE : Chars := chars ".word"

/-- Source `AssemblyParser._count_occurrences`.  After the quoted-string
early return, the source compares the top leaf's type against
`LeafType.LIST`; the enum defines no member `LIST`, so CPython raises
`AttributeError` there.  The quoted-string case returns
`len(definition) - 2`, which is why the result is an `Int`. -/
def countOccurrences (line delim : Chars) : Except String Int :=
  if delim ≠ BYTE_DIRECTIVE ∧ delim ≠ WORD_DIRECTIVE then .error "ValueError: Bruh, What?"
  else
    match strSplitOn (stripComment line) delim with
    | [_symbol, definition] =>
      let d := pyStrip definition
      match d with
      | [] => .error "IndexError: string index out of range"
      | c :: _ =>
        if c = '"' ∧ d.getLast? = some '"' then .ok ((d.length : Int) - 2)
        else
          match fpParse d with
          | .error e => .error e
          | .ok st =>
            if (st.node 0).children.length ≠ 1 then
              .error "AssertionError: one top leaf expected"
            else .error "AttributeError: LIST"
    | _ => .error "ValueError: unpack"

/-- Source `AssemblyParser._count_bytes_or_words`. -/
def countBytesOrWords (line : Chars) : Except String Int :=
  if strContains line BYTE_DIRECTIVE then countOccurrences line BYTE_DIRECTIVE
  else if strContains line WORD_DIRECTIVE then countOccurrences line WORD_DIRECTIVE
  else .error "ValueError: Bruh, What?"

/-- C4 (code evaluation): counting the bytes of the single-literal line
`.byte $01` raises (`LeafType.LIST` does not exist), instead of
contributing 1 byte; a `.db` line raises in `_count_bytes_or_words`;
only the quoted-string path still returns a count. -/
theorem c4_count_bytes_crashes :
    countBytesOrWords (chars ".byte $01") = .error "AttributeError: LIST" ∧
    countBytesOrWords (chars ".db $01") = .error "ValueError: Bruh, What?" ∧
    countBytesOrWords (chars ".byte \"AB\"") = .ok 2 :=
  ⟨rfl, rfl, rfl⟩

/-- Source `foundry/data_source/__init__.py::INSTRUCTIONS`. -/
def INSTRUCTIONS : List Chars :=
  (["ADC", "AND", "ASL", "BCC", "BCS", "BEQ", "BIT", "BMI", "BNE", "BPL",
    "BRA", "BRK", "BVC", "BVS", "CLC", "CLD", "CLI", "CLV", "CMP", "CPX",
    "CPY", "DEC", "DEX", "DEY", "EOR", "INC", "INX", "INY", "JMP", "JSR",
    "LDA", "LDX", "LDY", "LSR", "NOP", "ORA", "PHA", "PHP", "PLA", "PLP",
    "ROL", "ROR", "RTI", "RTS", "SBC", "SEC", "SED", "SEI", "STA", "STX",
    "STY", "TAX", "TAY", "TSX", "TXA", "TXS", "TYA"]).map chars

/-- Source `foundry/data_source/__init__.py::RELATIVE_ADDRESSING_INSTRUCTIONS`. -/
def RELATIVE_ADDRESSING_INSTRUCTIONS : List Chars :=
  (["BCC", "BCS", "BEQ", "BMI", "BNE", "BPL", "BRA", "BVC", "BVS"]).map chars

/-- Modelled from the spec: `NUMERAL_START_CHARS` is imported into
`assembly_parser.py` from the package module, where it is not defined in
`src/`; the spec says a numeral starts on a digit, `$`, `%`, or a
leading `+`/`-` sign, and `formula_parser.py` keeps a private copy
`_NUMERAL_START_CHARS = "$%+-"`. -/
def NUMERAL_START_CHARS : Chars := chars "$%+-"

/-- Python dict lookup on an association list. -/
def alookup {V : Type} : List (Chars × V) → Chars → Option V
  | [], _ => none
  | (k', v) :: rest, k => if k' = k then some v else alookup rest k

/-- Python dict assignment on an association list: update in place or
append. -/
def aupsert {V : Type} : List (Chars × V) → Chars → V → List (Chars × V)
  | [], k, v => [(k, v)]
  | (k', v') :: rest, k, v =>
    if k' = k then (k', v) :: rest else (k', v') :: aupsert rest k v

/-- Python `dict.pop(k, None)` on an association list. -/
def aerase {V : Type} : List (Chars × V) → Chars → List (Chars × V)
  | [], _ => []
  | (k', v') :: rest, k => if k' = k then rest else (k', v') :: aerase rest k

/-- A value of the constant table `_const_lut`: the source stores either
the raw string (or the markers `"xx"`, `"func"`, `"calc"`) or a parsed
integer. -/
inductive ConstVal
  | str (v : Chars)
  | int (v : Int)
deriving DecidableEq, Repr

/-- Source `assembly_parser.py::_string_is_calculation`. -/
def stringIsCalculation (line : Chars) : Bool :=
  line.all (fun c =>
    OPERATORS.contains [c] || c = ' ' || NUMERAL_START_CHARS.contains c || c.isDigit)

def isHexDigitChar (c : Char) : Bool :=
  c.isDigit || c.toUpper ∈ ['A', 'B', 'C', 'D', 'E', 'F']

def hexDigitVal (c : Char) : Nat := if c.isDigit then c.toNat - 48 else c.toUpper.toNat - 55

/-- Modelled from the spec: `smb3parse.util.hex_int` is not under
`src/`; the spec's numeric-literal syntax `$HEX` fixes it as base-16
parsing of the digit string (`int(x, 16)`). -/
def hexInt (s : Chars) : Except String Nat :=
  if s ≠ [] ∧ s.all isHexDigitChar then .ok (s.foldl (fun a c => 16 * a + hexDigitVal c) 0)
  else .error "ValueError: invalid literal for int with base 16"

/-- Modelled from the spec: `smb3parse.util.bin_int`, analogously
base-2 parsing (`int(x, 2)`). -/
def binInt (s : Chars) : Except String Nat :=
  if s ≠ [] ∧ s.all (fun c => c = '0' ∨ c = '1') then
    .ok (s.foldl (fun a c => 2 * a + (c.toNat - 48)) 0)
  else .error "ValueError: invalid literal for int with base 2"

/-- Source `assembly_parser.py::_parse_number`.  The final `eval` branch
(reached only for strings of decimal digits, spaces and operator
characters that are not a plain literal) runs the Python evaluator; no
claim depends on its value, so the model treats it as an opaque
failure. -/
def parseNumber (numberStr : Chars) : Except String Int :=
  let s0 := pyStrip numberStr
  let neg := strStartsWith s0 (chars "-")
  let s := if neg then s0.drop 1 else s0
  let core : Except String Int :=
    if strStartsWith s (chars "$") then
      match hexInt (s.drop 1) with
      | .error e => .error e
      | .ok n => if n ≤ 0xFFFF then .ok (n : Int) else .error "AssertionError: hex range"
    else if strStartsWith s (chars "%") then
      match binInt (s.drop 1) with
      | .error e => .error e
      | .ok n => if n ≤ 0xFF then .ok (n : Int) else .error "AssertionError: binary range"
    else if strStartsWith s (chars "'") then
      match strReplace s (chars "'") [] with
      | [c] =>
        if 65 ≤ c.toNat ∧ c.toNat ≤ 90 then .ok (c.toNat : Int)
        else .error "AssertionError: character range"
      | _ => .error "AssertionError: character length"
    else if pyIsNumeric s then .ok (decVal s : Int)
    else if ¬ stringIsCalculation s then .error "ValueError: could not parse number"
    else .error "eval"
  core.map (fun n => if neg then -n else n)

/-- The context of lookup tables an `AssemblyParser` instance carries
while counting instruction bytes. -/
structure InstrCtx where
  constLut : List (Chars × ConstVal)
  ramLut : List (Chars × AsmPosition)
  symbolLut : List (Chars × AsmPosition)
deriving Repr

/-- Source `AssemblyParser._num_or_const`: the constant-table value when
the text is a known constant name, the parsed number otherwise.  (A
string-valued constant makes the caller's `> 0xFF` comparison a
`TypeError`.) -/
def numOrConst (constLut : List (Chars × ConstVal)) (line : Chars) : Except String ConstVal :=
  let l := pyStrip line
  match alookup constLut l with
  | some v => .ok v
  | none => (parseNumber l).map ConstVal.int

/-- Source `AssemblyParser._count_instruction_args`. -/
def countInstructionArgs (ctx : InstrCtx) (args0 : Chars) : Except String Nat :=
  let args1 := strReplace args0 (chars " ") []
  if strStartsWith args1 (chars "#") then .ok 2
  else if strStartsWith args1 (chars "<") ∨ strStartsWith args1 (chars "[") then .ok 2
  else
    let args := strReplace (strReplace args1 (chars ",X") []) (chars ",Y") []
    match fpParse args with
    | .error e => .error e
    | .ok st =>
      if st.parts.any (fun p => (alookup ctx.ramLut p).isSome) then .ok 3
      else if st.parts.any
          (fun p => (alookup ctx.symbolLut p).isSome || (alookup ctx.constLut p).isSome) then
        .ok 3
      else
        match numOrConst ctx.constLut args with
        | .error e => .error e
        | .ok (.str _) => .error "TypeError: str int comparison"
        | .ok (.int v) => .ok (if v > 255 then 3 else 2)

/-- Source `AssemblyParser._count_instruction`. -/
def countInstruction (ctx : InstrCtx) (line0 : Chars) : Except String Nat :=
  let line := stripComment line0
  if strEndsWith line (chars " A") then .ok 1
  else
    let p := if strContains line (chars " ") then strSplitFirst line (chars " ")
             else (line, [])
    if ¬ INSTRUCTIONS.contains (strUpper p.1) then .error "AssertionError: unknown opcode"
    else if p.2 = [] then .ok 1
    else if RELATIVE_ADDRESSING_INSTRUCTIONS.contains (strUpper p.1) then .ok 2
    else if strUpper p.1 = chars "JMP" then .ok 3
    else countInstructionArgs ctx p.2

theorem any_or_merge (f g : Chars → Bool) (ps : List Chars) :
    (ps.any f || ps.any g) = ps.any (fun p => f p || g p) := by
  induction ps with
  | nil => rfl
  | cons a t ih =>
    simp only [List.any_cons, ← ih]
    cases f a <;> cases g a <;> simp

/-- Claim C5's rule table, stated from the claim's words (not from the
source): 1 byte when the instruction has no operand; always 2 bytes for
a relative-branch instruction with an operand; always 3 bytes for `JMP`
with an operand; otherwise 2 bytes when the operand starts with `#`,
`<` or `[`; otherwise 3 bytes when the operand expression references
any known RAM variable, symbol, or constant name, or its numeric value
exceeds 255; else 2 bytes.  `none` where the claim assigns no byte
count (unparsable operand or failed value resolution). -/
def c5ClaimedBytes (ctx : InstrCtx) (line0 : Chars) : Option Nat :=
  let line := stripComment line0
  let p := if strContains line (chars " ") then strSplitFirst line (chars " ")
           else (line, [])
  if p.2 = [] then some 1
  else if RELATIVE_ADDRESSING_INSTRUCTIONS.contains (strUpper p.1) then some 2
  else if strUpper p.1 = chars "JMP" then some 3
  else
    let o := strReplace p.2 (chars " ") []
    if strStartsWith o (chars "#") then some 2
    else if strStartsWith o (chars "<") ∨ strStartsWith o (chars "[") then some 2
    else
      let o1 := strReplace (strReplace o (chars ",X") []) (chars ",Y") []
      match fpParse o1 with
      | .error _ => none
      | .ok st =>
        if st.parts.any (fun q =>
            (alookup ctx.ramLut q).isSome ||
              ((alookup ctx.symbolLut q).isSome || (alookup ctx.constLut q).isSome)) then
          some 3
        else
          match numOrConst ctx.constLut o1 with
          | .ok (.int v) => some (if v > 255 then 3 else 2)
          | _ => none

/-- Claim C5 amended by the counterexample: an operand that is exactly
the accumulator `A` (a line ending in `" A"`) is 1 byte; every other
case follows the claimed rule table. -/
def c5AmendedBytes (ctx : InstrCtx) (line0 : Chars) : Option Nat :=
  if strEndsWith (stripComment line0) (chars " A") then some 1
  else c5ClaimedBytes ctx line0

def c5Ctx : InstrCtx := ⟨[(chars "A", .int 0x1234)], [], []⟩

/-- C5 counterexample: with `A` a known constant, the line `LDA A` has
an operand that references a known constant name, so the claimed rule
table assigns 3 bytes; the source's `_count_instruction` returns 1
(its first check is `line.endswith(" A")`, accumulator addressing,
which the claim omits). -/
theorem c5_counterexample :
    countInstruction c5Ctx (chars "LDA A") = .ok 1 ∧
    c5ClaimedBytes c5Ctx (chars "LDA A") = some 3 :=
  ⟨rfl, rfl⟩

/-- C5 (amended): whenever the source's `_count_instruction` computes a
byte count, that count is the one assigned by the claimed rule table
extended with the accumulator case. -/
theorem c5_count_instruction_amended (ctx : InstrCtx) (line : Chars) (v : Nat)
    (h : countInstruction ctx line = .ok v) : c5AmendedBytes ctx line = some v := by
  unfold countInstruction at h
  unfold c5AmendedBytes c5ClaimedBytes
  by_cases hA : strEndsWith (stripComment line) (chars " A") = true
  · rw [if_pos hA] at h ⊢
    cases h
    rfl
  · rw [if_neg hA] at h ⊢
    set p := (if strContains (stripComment line) (chars " ") then
        strSplitFirst (stripComment line) (chars " ")
      else (stripComment line, [])) with hp
    by_cases hI : INSTRUCTIONS.contains (strUpper p.1) = true
    · rw [if_neg (fun hc => hc hI)] at h
      by_cases hE : p.2 = []
      · rw [if_pos hE] at h ⊢
        cases h
        rfl
      · rw [if_neg hE] at h ⊢
        by_cases hR : RELATIVE_ADDRESSING_INSTRUCTIONS.contains (strUpper p.1) = true
        · rw [if_pos hR] at h ⊢
          cases h
          rfl
        · rw [if_neg hR] at h ⊢
          by_cases hJ : strUpper p.1 = chars "JMP"
          · rw [if_pos hJ] at h ⊢
            cases h
            rfl
          · rw [if_neg hJ] at h ⊢
            unfold countInstructionArgs at h
            set o := strReplace p.2 (chars " ") [] with ho
            by_cases hH : strStartsWith o (chars "#") = true
            · rw [if_pos hH] at h ⊢
              cases h
              rfl
            · rw [if_neg hH] at h ⊢
              by_cases hZ : strStartsWith o (chars "<") = true ∨ strStartsWith o (chars "[") = true
              · rw [if_pos hZ] at h ⊢
                cases h
                rfl
              · rw [if_neg hZ] at h ⊢
                set o1 := strReplace (strReplace o (chars ",X") []) (chars ",Y") [] with ho1
                dsimp only at h ⊢
                match hfp : fpParse o1 with
                | .error e =>
                  rw [hfp] at h
                  exact Except.noConfusion h
                | .ok st =>
                  rw [hfp] at h
                  dsimp only at h ⊢
                  rw [← any_or_merge]
                  by_cases hRam : (st.parts.any fun q => (alookup ctx.ramLut q).isSome) = true
                  · rw [if_pos hRam] at h
                    cases h
                    rw [if_pos (by simp [hRam])]
                  · rw [if_neg hRam] at h
                    by_cases hSym : (st.parts.any fun q =>
                        (alookup ctx.symbolLut q).isSome || (alookup ctx.constLut q).isSome) = true
                    · rw [if_pos hSym] at h
                      cases h
                      rw [if_pos (by simp [hSym])]
                    · rw [if_neg hSym] at h
                      rw [if_neg (by simp [hRam, hSym])]
                      match hnc : numOrConst ctx.constLut o1 with
                      | .error e => rw [hnc] at h; exact Except.noConfusion h
                      | .ok (.str w) => rw [hnc] at h; exact Except.noConfusion h
                      | .ok (.int w) =>
                        rw [hnc] at h
                        cases h
                        rfl
    · rw [if_pos hI] at h
      cases h

/-- Witness for the amended C5 at a concrete absolute-addressed zero-page
operand. -/
theorem c5_amended_witness :
    c5AmendedBytes c5Ctx (chars "LDA $10") = some 2 :=
  c5_count_instruction_amended c5Ctx (chars "LDA $10") 2 rfl

/-- Source `foundry/data_source/__init__.py::FUNCTIONS`. -/
def FUNCTIONS : List Chars := (["HIGH", "LOW", "BANK", "PAGE", "SIZEOF"]).map chars

/-- Source `assembly_parser.py::_is_empty_line`. -/
def isEmptyLine (line : Chars) : Bool := pyStrip line = []

/-- Source `assembly_parser.py::_is_only_comment`. -/
def isOnlyComment (line : Chars) : Bool := line ≠ [] && stripComment line = []

/-- Source `assembly_parser.py::_is_func_directive`. -/
def isFuncDirective (line : Chars) : Bool :=
  strContains line (chars ".func") && (strSplitOn line (chars ".func")).length = 2

/-- Source `assembly_parser.py::_is_byte`. -/
def isByte (line : Chars) : Bool :=
  strContains line BYTE_DIRECTIVE || strContains line (chars ".db")

/-- Source `assembly_parser.py::_is_word`. -/
def isWord (line : Chars) : Bool :=
  strContains line WORD_DIRECTIVE || strContains line (chars ".dw")

/-- Source `assembly_parser.py::_is_include_directive`. -/
def isIncludeDirective (line : Chars) : Bool :=
  strContains (stripComment line) (chars ".include")

/-- Source `assembly_parser.py::_is_instruction` (note: no upper-casing;
the first token of the single-space split must be in the instruction
table verbatim). -/
def isInstruction (line : Chars) : Bool :=
  let l := stripComment line
  INSTRUCTIONS.contains ((strSplitOn l (chars " ")).headD [])

/-- Source `assembly_parser.py::_is_symbol_definition`. -/
def isSymbolDefinition (line : Chars) : Bool :=
  let l := stripComment line
  if ¬ strContains l (chars ":") then
    (strSplitWs l).length = 1 && ¬ isInstruction l
  else
    ¬ strStartsWith l (chars ":")

/-- Source `assembly_parser.py::_is_const_assignment`. -/
def isConstAssignment (line : Chars) : Bool :=
  (strSplitOn (stripComment line) (chars "=")).length = 2

/-- Source `assembly_parser.py::_is_calculation`. -/
def isCalculation (line : Chars) : Bool :=
  let l := if strStartsWith line (chars "-") || strStartsWith line (chars "%")
              || strStartsWith line (chars "$") then line.drop 1 else line
  OPERATORS.any (fun op => strContains l op) ||
    COMPARATORS.any (fun cp => strContains l cp)

/-- Source `assembly_parser.py::_parse_calculation`. -/
def parseCalculation (line : Chars) : Except String (Chars × Chars × Chars) :=
  match OPERATORS.find? (fun op => strContains (line.drop 1) op) with
  | none => .error "ValueError: could not parse calculation"
  | some op =>
    match strSplitOn line op with
    | [l, r] => .ok (pyStrip l, pyStrip r, op)
    | _ => .error "ValueError: unpack"

/-- Source `AssemblyParser._is_func_call`.  Raises when the called
function is neither in the function table nor built in. -/
def isFuncCall (funcLut : List (Chars × AsmPosition)) (line0 : Chars) : Except String Bool :=
  let line := stripComment line0
  if ¬ (strContains line (chars "(") ∧ strContains line (chars ")")) then .ok false
  else
    let idx := (line.findIdx? (· = '(')).getD 0
    if idx = 0 ∨ line.getD (idx - 1) ' ' = ' ' then .ok false
    else
      let funcName :=
        (((strSplitOn ((strSplitOn line (chars "(")).headD []) (chars " ")).getLast?).getD [])
      if (alookup funcLut funcName).isNone ∧ ¬ FUNCTIONS.contains funcName then
        .error "ValueError: function call not found"
      else .ok true

/-- The lookup-table state of an `AssemblyParser` during pass 1. -/
structure ApState where
  macroLut : List (Chars × Macro)
  constLut : List (Chars × ConstVal)
  funcLut : List (Chars × AsmPosition)
  ramLut : List (Chars × AsmPosition)
  symbolLut : List (Chars × AsmPosition)
  lineCo : Nat
deriving Repr

/-- In several `_prg_pass_1` branches the source constructs
`AsmPosition` with two arguments; the dataclass has three required
fields, so CPython raises `TypeError` there. -/
def typeErrorAsmPosition : String := "TypeError: AsmPosition missing required argument size"

/-- `pathlib.Path.with_suffix(".asm")` (replace the extension of the
last path component, or append one).  Only reached for include targets
that are not on disk; no claim depends on it. -/
def withSuffixAsm (p : Chars) : Chars :=
  let lastComp := ((strSplitOn p (chars "/")).getLast?).getD p
  if strContains lastComp (chars ".") then
    ((p.reverse.dropWhile (fun c => ¬ c = '.')).drop 1).reverse ++ chars ".asm"
  else p ++ chars ".asm"

/-- The line loop of `AssemblyParser._prg_pass_1` over an environment
mapping file names to their lines.  The branch order follows the
source: empty line, comment-only, `.func` directive, byte, word, macro
definition, `.include`, symbol definition, constant assignment,
ignored.  Branches whose source constructs a two-argument
`AsmPosition` stop with `typeErrorAsmPosition` at the exact point the
source raises. -/
def prgPass1Go (env : List (Chars × List Chars)) :
    Nat → ApState → List Chars → Except String ApState
  | 0, _, _ => .error "fuel exhausted"
  | _ + 1, st0, [] => .ok st0
  | fuel + 1, st0, l0 :: rest =>
    let line := strReplace l0 (chars "\t") (chars " ")
    let st := { st0 with lineCo := st0.lineCo + 1 }
    if isEmptyLine line then prgPass1Go env fuel st rest
    else if isOnlyComment line then prgPass1Go env fuel st rest
    else if isFuncDirective line then .error typeErrorAsmPosition
    else if isByte line then
      if ¬ strStartsWith (stripComment line) BYTE_DIRECTIVE then .error typeErrorAsmPosition
      else prgPass1Go env fuel st rest
    else if isWord line then
      if ¬ strStartsWith (stripComment line) WORD_DIRECTIVE then .error typeErrorAsmPosition
      else prgPass1Go env fuel st rest
    else if Macro.macroOnLine line ≠ [] then .error typeErrorAsmPosition
    else if isIncludeDirective line then
      let sline := stripComment line
      if strContains sline (chars ":") then prgPass1Go env fuel st rest
      else
        let fileName :=
          pyStrip (strReplace ((strSplitOn sline (chars ".include")).getD 1 []) (chars "\"") [])
        let absName := if (alookup env fileName).isSome then fileName
                       else withSuffixAsm fileName
        match alookup env absName with
        | none => .error "FileNotFoundError"
        | some fl =>
          let lineCountBefore := st.lineCo
          match prgPass1Go env fuel { st with lineCo := 0 } fl with
          | .error e => .error e
          | .ok st2 =>
            if st2.lineCo ≠ fl.length then .error "AssertionError: line count"
            else prgPass1Go env fuel { st2 with lineCo := lineCountBefore } rest
    else if isSymbolDefinition line then .error typeErrorAsmPosition
    else if isConstAssignment line then
      match strSplitOn (stripComment line) (chars "=") with
      | [n0, v0] =>
        let name := pyStrip n0
        let value := pyStrip v0
        if (alookup st.constLut value).isSome then .error "ValueError: Redefinition"
        else
          match isFuncCall st.funcLut value with
          | .error e => .error e
          | .ok true =>
            prgPass1Go env fuel
              { st with constLut := aupsert st.constLut name (.str (chars "func")) } rest
          | .ok false =>
            if isCalculation value then
              match parseCalculation value with
              | .error e => .error e
              | .ok _ =>
                prgPass1Go env fuel
                  { st with constLut := aupsert st.constLut name (.str (chars "calc")) } rest
            else
              match parseNumber value with
              | .error e => .error e
              | .ok n =>
                prgPass1Go env fuel
                  { st with constLut := aupsert st.constLut name (.int n) } rest
      | _ => .error "ValueError: unpack"
    else prgPass1Go env fuel st rest

/-- Source `AssemblyParser._prg_pass_1` on one file: reset the line
counter, run the line loop, and check the closing line-count
assertion. -/
def prgPass1 (env : List (Chars × List Chars)) (st : ApState) (fileName : Chars) :
    Except String ApState :=
  match alookup env fileName with
  | none => .error "FileNotFoundError"
  | some fl =>
    let fuel := (env.foldl (fun a p => a + p.2.length) 0 + env.length + 2) * (env.length + 2)
    match prgPass1Go env fuel { st with lineCo := 0 } fl with
    | .error e => .error e
    | .ok st2 =>
      if st2.lineCo ≠ fl.length then .error "AssertionError: line count" else .ok st2

/-- The constant-assignment branch of `AssemblyParser._parse_smb3_asm`
(the `_is_const_assignment` case): split on `=`, raise on a name
already present in the constant table, record `"xx"` for calculation
values, else record the raw value string. -/
def smb3ConstAssign (constLut : List (Chars × ConstVal)) (line0 : Chars) :
    Except String (List (Chars × ConstVal)) :=
  let line := stripComment line0
  match strSplitOn line (chars "=") with
  | [n0, v0] =>
    let name := pyStrip n0
    let value := pyStrip v0
    if (alookup constLut name).isSome then .error "ValueError: Redefinition"
    else if isCalculation value then
      (parseCalculation value).map (fun _ => aupsert constLut name (.str (chars "xx")))
    else .ok (aupsert constLut name (.str value))
  | _ => .error "ValueError: unpack"

def apState0 : ApState := ⟨[], [], [], [], [], 0⟩

def c6EnvRedef : List (Chars × List Chars) :=
  [(chars "prg000.asm", [chars "X = $01", chars "X = $02"])]

def c6EnvValueHit : List (Chars × List Chars) :=
  [(chars "prg000.asm", [chars "X = $01", chars "Y = X"])]

/-- C6 (code evaluation): in `_prg_pass_1` the redefinition check tests
`value in self._const_lut` instead of `name in self._const_lut`.  So a
PRG file that defines the same constant name twice passes silently (the
second value wins), while a fresh assignment whose value string equals
an existing constant name falsely raises "Redefinition".  The entry
file's `_parse_smb3_asm` checks the name and does raise. -/
theorem c6_prg_redefinition_not_detected :
    (prgPass1 c6EnvRedef apState0 (chars "prg000.asm")).map ApState.constLut =
      .ok [(chars "X", .int 2)] ∧
    prgPass1 c6EnvValueHit apState0 (chars "prg000.asm") =
      .error "ValueError: Redefinition" ∧
    smb3ConstAssign [(chars "X", .str (chars "$01"))] (chars "X = $02") =
      .error "ValueError: Redefinition" :=
  ⟨rfl, rfl, rfl⟩

/-- Modelled from the spec: `smb3parse.constants.BASE_OFFSET` is not
under `src/`; the spec fixes the header as a 16-byte structure
("Output header layout: 16-byte structure"), and the source comments
speak of a 16-byte difference between ROM and PRG offsets. -/
def BASE_OFFSET : Nat := 16

/-- The INES fields of an `AssemblyParser` instance (all initialized to
0 in `__init__`). -/
structure InesState where
  prgCount : Nat := 0
  chrCount : Nat := 0
  inesMapper : Nat := 0
  inesMirror : Nat := 0
deriving DecidableEq, Repr

/-- Python `int(value)` for the nonnegative decimal strings these
directives carry. -/
def pyIntDec (s : Chars) : Except String Nat :=
  let t := pyStrip s
  if pyIsNumeric t then .ok (decVal t) else .error "ValueError: invalid literal for int"

/-- Source `AssemblyParser._handle_ines_directive`: split the
comment-stripped line into directive and value; `.inesprg`/`.ineschr`
store the value, `.inesmap` stores `int(value) >> 4`, `.inesmir`
stores `int(value) & 0x0F`; an unknown `.ines` directive changes
nothing. -/
def handleInesDirective (st : InesState) (line : Chars) : Except String InesState :=
  match strSplitWs (stripComment line) with
  | [d, v] =>
    if d = chars ".inesprg" then (pyIntDec v).map (fun n => { st with prgCount := n })
    else if d = chars ".ineschr" then (pyIntDec v).map (fun n => { st with chrCount := n })
    else if d = chars ".inesmap" then (pyIntDec v).map (fun n => { st with inesMapper := n >>> 4 })
    else if d = chars ".inesmir" then (pyIntDec v).map (fun n => { st with inesMirror := n &&& 0x0F })
    else .ok st
  | _ => .error "ValueError: unpack"

/-- Source `AssemblyParser.ines_header`: a `bytearray(BASE_OFFSET)` of
zeros with bytes 0-2 set to ASCII `NES`, byte 3 to `0x1A`, byte 4 to
the PRG count, byte 5 to the CHR count and byte 6 to
`(mapper << 4) + mirror` (a `bytearray` assignment out of byte range
raises). -/
def inesHeader (st : InesState) : Except String (List Nat) :=
  let b6 := (st.inesMapper <<< 4) + st.inesMirror
  if st.prgCount ≤ 255 ∧ st.chrCount ≤ 255 ∧ b6 ≤ 255 then
    .ok ([78, 69, 83, 26, st.prgCount, st.chrCount, b6, 0] ++
      List.replicate (BASE_OFFSET - 8) 0)
  else .error "ValueError: byte must be in range"

def c3Directives : List Chars :=
  [chars ".inesprg 1", chars ".ineschr 1", chars ".inesmap 5", chars ".inesmir 6"]

/-- C3 (code evaluation): after processing `.inesprg 1`, `.ineschr 1`,
`.inesmap 5`, `.inesmir 6`, the synthesized header has
`NES`, `0x1A`, the PRG and CHR counts and byte 7 = 0 as claimed — but
byte 6 is `0x06`, not the claimed `0x56`, because
`_handle_ines_directive` stores `int(value) >> 4 = 0` as the mapper.
Setting the mapper field itself to 5 (as the repo's own
`test_ines_header` does) yields the claimed `0x56`. -/
theorem c3_ines_header_after_directives :
    (c3Directives.foldlM handleInesDirective {} : Except String InesState).bind inesHeader =
      .ok [78, 69, 83, 26, 1, 1, 0x06, 0, 0, 0, 0, 0, 0, 0, 0, 0] ∧
    inesHeader { prgCount := 1, chrCount := 1, inesMapper := 5, inesMirror := 6 } =
      .ok [78, 69, 83, 26, 1, 1, 0x56, 0, 0, 0, 0, 0, 0, 0, 0, 0] ∧
    (0x06 : Nat) ≠ 0x56 :=
  ⟨rfl, rfl, by decide⟩

/-- Python dict lookup on a `Nat`-keyed association list (used for the
object stores). -/
def nlookup {V : Type} : List (Nat × V) → Nat → Option V
  | [], _ => none
  | (k', v) :: rest, k => if k' = k then some v else nlookup rest k

/-- Update-or-append on a `Nat`-keyed association list. -/
def nupsert {V : Type} : List (Nat × V) → Nat → V → List (Nat × V)
  | [], k, v => [(k, v)]
  | (k', v') :: rest, k, v =>
    if k' = k then (k', v) :: rest else (k', v') :: nupsert rest k v

namespace RefFinder

/-- Source `tools/asm_ide/reference_finder.py::ReferenceType`. -/
inductive RefType
  | CONSTANT | LABEL | RAM_VAR | UNSET
deriving DecidableEq, Repr

/-- Source `reference_finder.py::ReferenceDefinition` (a NamedTuple). -/
structure RefDef where
  name : Chars
  value : Chars
  originFile : Chars
  originLineNo : Nat
  rtype : RefType
  line : Chars
deriving DecidableEq, Repr

/-- The character class `[A-za-z0-9_]` of `_CONST_REGEX` (written with a
lowercase `a` in the source, so the range `A-z` also admits the
punctuation between `Z` and `a`). -/
def isConstClassChar (c : Char) : Bool := ('A' ≤ c ∧ c ≤ 'z') || c.isDigit || c = '_'

def isIdentStartChar (c : Char) : Bool := c.isAlpha || c = '_'

def isIdentChar (c : Char) : Bool := c.isAlphanum || c = '_'

def isUpperHexDigit (c : Char) : Bool := c.isDigit || c ∈ ['A', 'B', 'C', 'D', 'E', 'F']

/-- Try `_CONST_REGEX`
(`([A-Za-z][A-za-z0-9_]*)\s*\=\s*(\$[0-9A-F]+|\%[0-1]+|[0-9]+)`) at the
start of `s`; on success return the two capture groups and the text
after the match.  The greedy runs are deterministic here: the name
class contains neither `=` nor whitespace, so no backtracking can
succeed. -/
def constMatchAt (s : Chars) : Option (Chars × Chars × Chars) :=
  match s with
  | [] => none
  | c :: rest =>
    if c.isAlpha then
      let run := rest.takeWhile isConstClassChar
      let afterWs := (rest.drop run.length).dropWhile Char.isWhitespace
      match afterWs with
      | '=' :: afterEq =>
        let v := afterEq.dropWhile Char.isWhitespace
        match v with
        | '$' :: t =>
          let ds := t.takeWhile isUpperHexDigit
          if ds ≠ [] then some (c :: run, '$' :: ds, t.drop ds.length) else none
        | '%' :: t =>
          let ds := t.takeWhile (fun d => d = '0' || d = '1')
          if ds ≠ [] then some (c :: run, '%' :: ds, t.drop ds.length) else none
        | _ =>
          let ds := v.takeWhile Char.isDigit
          if ds ≠ [] then some (c :: run, ds, v.drop ds.length) else none
      | _ => none
    else none

/-- Try `_RAM_REGEX` (`([A-Za-z_][A-Za-z0-9_]*)\:\s*(\.ds.*)`) at the
start of `s`. -/
def ramMatchAt (s : Chars) : Option (Chars × Chars × Chars) :=
  match s with
  | [] => none
  | c :: rest =>
    if isIdentStartChar c then
      let run := rest.takeWhile isIdentChar
      match rest.drop run.length with
      | ':' :: t =>
        let t2 := t.dropWhile Char.isWhitespace
        if strStartsWith t2 (chars ".ds") then some (c :: run, t2, []) else none
      | _ => none
    else none

/-- Try `_LABEL_REGEX` (`([A-Za-z_][A-Za-z0-9_]*)\:\s*(.*)`) at the
start of `s`. -/
def labelMatchAt (s : Chars) : Option (Chars × Chars × Chars) :=
  match s with
  | [] => none
  | c :: rest =>
    if isIdentStartChar c then
      let run := rest.takeWhile isIdentChar
      match rest.drop run.length with
      | ':' :: t => some (c :: run, t.dropWhile Char.isWhitespace, [])
      | _ => none
    else none

/-- `QRegularExpression.globalMatch`: scan left to right, resuming each
search at the end offset of the previous match. -/
def globalMatchAux (matchAt : Chars → Option (Chars × Chars × Chars)) :
    Nat → Chars → List (Chars × Chars)
  | 0, _ => []
  | _ + 1, [] => []
  | fuel + 1, c :: rest =>
    match matchAt (c :: rest) with
    | some (g1, g2, after) => (g1, g2) :: globalMatchAux matchAt fuel after
    | none => globalMatchAux matchAt fuel rest

def globalMatch (matchAt : Chars → Option (Chars × Chars × Chars)) (s : Chars) :
    List (Chars × Chars) :=
  globalMatchAux matchAt (s.length + 1) s

/-- All matches of `_CONST_LABEL_CALL_RAM_VAR_REGEX`
(`([A-Za-z_][A-Za-z0-9_]*)`): every maximal identifier token. -/
def identMatchesAux : Nat → Chars → List Chars
  | 0, _ => []
  | _ + 1, [] => []
  | fuel + 1, c :: rest =>
    if isIdentStartChar c then
      let run := rest.takeWhile isIdentChar
      (c :: run) :: identMatchesAux fuel (rest.drop run.length)
    else identMatchesAux fuel rest

def identMatches (s : Chars) : List Chars := identMatchesAux (s.length + 1) s

/-- Source `ReferenceFinder._find_definitions_in_line`: run the three
definition regex families in priority order (constant, RAM variable,
label) over the comment-stripped line; the first family with any match
records all its matches into the private definition dict and stops. -/
def findDefinitionsInLine (defs : List (Chars × RefDef)) (line : Chars) (lineNo : Nat)
    (relPath : Chars) : List (Chars × RefDef) :=
  let clean := stripComment line
  let record := fun (ms : List (Chars × Chars)) (t : RefType) =>
    ms.foldl (fun d nv =>
      aupsert d nv.1 ⟨nv.1, nv.2, relPath, lineNo, t, normalizeWs line⟩) defs
  let cm := globalMatch constMatchAt clean
  if cm ≠ [] then record cm .CONSTANT
  else
    let rm := globalMatch ramMatchAt clean
    if rm ≠ [] then record rm .RAM_VAR
    else
      let lm := globalMatch labelMatchAt clean
      if lm ≠ [] then record lm .LABEL
      else defs

/-- The mutable state of a `ReferenceFinder` instance.  The published
dicts (`definitions`, `name_to_references`) and the private dicts
(`_definitions`, `_name_to_references`) hold definition records
directly, but reference SETS are Python objects shared between dicts
after a shallow `dict.copy()`: they live in `setStore` under ids, and
the dicts map a name to a set id.  The caller-supplied local-copies
dict is likewise an object: `dictStore` maps dict ids to contents and
`localCopiesId` is the id the engine currently holds. -/
structure RFState where
  definitions : List (Chars × RefDef)
  privDefinitions : List (Chars × RefDef)
  nameToRefs : List (Chars × Nat)
  privNameToRefs : List (Chars × Nat)
  setStore : List (Nat × List RefDef)
  nextSetId : Nat
  dictStore : List (Nat × List (Chars × List Chars))
  localCopiesId : Nat
  openFile : Option Chars
deriving DecidableEq, Repr

/-- The environment of a run: the on-disk files (path to lines) and the
result of the `prg_files` glob.  Paths are the root-relative texts (the
source resolves absolute against the root and back). -/
structure RFEnv where
  disk : List (Chars × List Chars)
  prgFiles : List Chars
deriving Repr

def smb3Path : Chars := chars "smb3.asm"

def RFState.localCopies (s : RFState) : List (Chars × List Chars) :=
  (nlookup s.dictStore s.localCopiesId).getD []

/-- File reading as both definition and reference passes do it: a local
copy overrides the on-disk content; a missing file raises.  Content is
kept as lines; the `value in data` substring test of the reference pass
is over lines (names contain no newline, so this agrees with the
whole-text test). -/
def readLines (env : RFEnv) (s : RFState) (path : Chars) : Except String (List Chars) :=
  match alookup s.localCopies path with
  | some ls => .ok ls
  | none =>
    match alookup env.disk path with
    | some ls => .ok ls
    | none => .error "FileNotFoundError"

/-- Source `ReferenceFinder._parse_file_for_definitions`. -/
def parseFileForDefinitions (env : RFEnv) (s : RFState) (path : Chars) :
    RFState × Option String :=
  match readLines env s path with
  | .error e => (s, some e)
  | .ok lines =>
    (lines.enum.foldl (fun st p =>
      { st with privDefinitions :=
          findDefinitionsInLine st.privDefinitions p.2 (p.1 + 1) path }) s, none)

/-- Source `ReferenceFinder._remove_all_definitions_of_file`. -/
def removeAllDefinitionsOfFile (s : RFState) (path : Chars) : RFState :=
  { s with privDefinitions := s.privDefinitions.filter (fun p => ¬ p.2.originFile = path) }

/-- Source `ReferenceFinder._parse_all_files_for_definitions`: clear
both private dicts, then collect definitions from the entry file and
every PRG file. -/
def defsPass (env : RFEnv) : List Chars → RFState → RFState × Option String
  | [], s => (s, none)
  | f :: fs, s =>
    match parseFileForDefinitions env s f with
    | (s1, some e) => (s1, some e)
    | (s1, none) => defsPass env fs s1

/-- Source `ReferenceFinder._parse_current_file_for_definitions`:
shallowly copy the published dicts into the private ones (reference
sets stay shared), re-derive the open file's definitions, and pop the
removed names from the PUBLISHED reference map; returns the added
names. -/
def parseCurrentFileForDefinitions (env : RFEnv) (s0 : RFState) :
    RFState × List Chars × Option String :=
  let s1 := { s0 with privDefinitions := s0.definitions, privNameToRefs := s0.nameToRefs }
  let afterParse :=
    match s0.openFile with
    | some f => parseFileForDefinitions env (removeAllDefinitionsOfFile s1 f) f
    | none => (s1, none)
  match afterParse with
  | (s2, some e) => (s2, [], some e)
  | (s2, none) =>
    let oldKeys := s0.definitions.map (fun p => p.1)
    let newKeys := s2.privDefinitions.map (fun p => p.1)
    let removed := oldKeys.filter (fun k => ¬ newKeys.contains k)
    let added := newKeys.filter (fun k => ¬ oldKeys.contains k)
    ({ s2 with nameToRefs := removed.foldl aerase s2.nameToRefs }, added, none)

/-- Source `ReferenceFinder._find_references_in_line`: record every
identifier token of the comment-stripped line as a reference (the
private dict is a defaultdict: a missing name gets a fresh empty set;
set add deduplicates). -/
def findReferencesInLine (s : RFState) (line : Chars) (lineNo : Nat) (relPath : Chars) :
    RFState :=
  (identMatches (stripComment line)).foldl (fun st name =>
    let ref : RefDef := ⟨name, [], relPath, lineNo, .UNSET, normalizeWs line⟩
    match alookup st.privNameToRefs name with
    | some sid =>
      let old := (nlookup st.setStore sid).getD []
      { st with setStore :=
          nupsert st.setStore sid (if old.any (fun r => r = ref) then old else old ++ [ref]) }
    | none =>
      { st with privNameToRefs := aupsert st.privNameToRefs name st.nextSetId,
                setStore := nupsert st.setStore st.nextSetId [ref],
                nextSetId := st.nextSetId + 1 }) s

/-- Source `ReferenceFinder._remove_reference_of_file`: only an
incremental pass over the open file removes that file's references —
from the sets reachable through the private dict (which an incremental
run shares with the published dict). -/
def removeReferenceOfFile (s : RFState) (force isOpen : Bool) (relPath : Chars) : RFState :=
  if force || !isOpen then s
  else
    s.privNameToRefs.foldl (fun st p =>
      { st with setStore := (nupsert st.setStore p.2
          (((nlookup st.setStore p.2).getD []).filter
            (fun r => ¬ r.originFile = relPath))) }) s

/-- Source `ReferenceFinder._parse_file_for_references`. -/
def parseFileForReferences (env : RFEnv) (s : RFState) (path : Chars)
    (added : List Chars) (force : Bool) : RFState × Option String :=
  match readLines env s path with
  | .error e => (s, some e)
  | .ok lines =>
    let isOpen := s.openFile = some path
    if ¬ (force || isOpen) = true ∧
        ¬ (added.any (fun v => lines.any (fun l => strContains l v))) = true then
      (s, none)
    else
      let s1 := removeReferenceOfFile s force isOpen path
      (lines.enum.foldl (fun st p => findReferencesInLine st p.2 (p.1 + 1) path) s1, none)

def refsPass (env : RFEnv) (added : List Chars) (force : Bool) :
    List Chars → RFState → RFState × Option String
  | [], s => (s, none)
  | f :: fs, s =>
    match parseFileForReferences env s f added force with
    | (s1, some e) => (s1, some e)
    | (s1, none) => refsPass env added force fs s1

/-- Source `ReferenceFinder._cleanup_references`: for every definition
in the PUBLISHED definition dict, remove from the private reference map
the references sharing the definition's (file, line) position.  The
private dict is a defaultdict, so a missing name gains an empty set,
and `suppress(KeyError)` never fires. -/
def cleanupReferences (s : RFState) : RFState :=
  s.definitions.foldl (fun st p =>
    let getEntry :=
      match alookup st.privNameToRefs p.1 with
      | some sid => (st, sid)
      | none =>
        ({ st with privNameToRefs := aupsert st.privNameToRefs p.1 st.nextSetId,
                   setStore := nupsert st.setStore st.nextSetId [],
                   nextSetId := st.nextSetId + 1 }, st.nextSetId)
    let st1 := getEntry.1
    let sid := getEntry.2
    { st1 with setStore := (nupsert st1.setStore sid
        (((nlookup st1.setStore sid).getD []).filter
          (fun r => ¬ (r.originFile = p.2.originFile ∧ r.originLineNo = p.2.originLineNo)))) }) s

/-- The tail of a successful `ReferenceFinder.run`: publish the private
dicts by shallow copy (the published reference map now holds the same
set ids as the private one) and clear the caller's local-copies dict in
place. -/
def publishAndClear (s : RFState) : RFState :=
  { s with definitions := s.privDefinitions,
           nameToRefs := s.privNameToRefs,
           dictStore := nupsert s.dictStore s.localCopiesId [] }

/-- Source `ReferenceFinder.run_with_local_copies`: store the caller's
dict (by object id) and the open file; the caller then invokes `run`. -/
def runWithLocalCopies (s : RFState) (callerDictId : Nat) (openFile : Option Chars) :
    RFState :=
  { s with localCopiesId := callerDictId, openFile := openFile }

/-- The fallible body of `ReferenceFinder.run` up to (not including) the
publish step: definitions pass (full or incremental by
`_currently_open_file`), references pass over the entry file and every
PRG file, cleanup.  Progress signals and timing prints are omitted. -/
def runCore (env : RFEnv) (s0 : RFState) : RFState × Option String :=
  let defsResult : RFState × List Chars × Option String :=
    if s0.openFile.isNone then
      let r := defsPass env (smb3Path :: env.prgFiles)
        { s0 with privDefinitions := [], privNameToRefs := [] }
      (r.1, [], r.2)
    else parseCurrentFileForDefinitions env s0
  match defsResult with
  | (s1, _, some e) => (s1, some e)
  | (s1, added, none) =>
    match refsPass env added s0.openFile.isNone (smb3Path :: env.prgFiles) s1 with
    | (s2, some e) => (s2, some e)
    | (s2, none) => (cleanupReferences s2, none)

/-- Source `ReferenceFinder.run`: on success, publish and clear the
local copies; an uncaught exception leaves the state as it was at the
point of the raise. -/
def run (env : RFEnv) (s0 : RFState) : RFState × Option String :=
  match runCore env s0 with
  | (s, some e) => (s, some e)
  | (s, none) => (publishAndClear s, none)

/-- What a reader of the published Reference map observes: for each
published name, the CONTENTS of its reference set. -/
def observedRefs (s : RFState) : List (Chars × List RefDef) :=
  s.nameToRefs.map (fun p => (p.1, (nlookup s.setStore p.2).getD []))

end RefFinder
theorem foldl_pres {α β : Type} (g : β → Nat) (f : β → α → β)
    (h : ∀ st x, g (f st x) = g st) (l : List α) (s : β) : g (l.foldl f s) = g s := by
  induction l generalizing s with
  | nil => rfl
  | cons a t ih => rw [List.foldl_cons, ih, h]

theorem nlookup_nupsert_self {V : Type} (d : List (Nat × V)) (k : Nat) (v : V) :
    nlookup (nupsert d k v) k = some v := by
  induction d with
  | nil => simp [nupsert, nlookup]
  | cons p rest ih =>
    by_cases hk : p.1 = k
    · simp [nupsert, nlookup, hk]
    · simp [nupsert, nlookup, hk, ih]

namespace RefFinder

theorem lcid_parseFileForDefinitions (env : RFEnv) (s : RFState) (path : Chars) :
    (parseFileForDefinitions env s path).1.localCopiesId = s.localCopiesId := by
  unfold parseFileForDefinitions
  cases hr : readLines env s path with
  | error e => rfl
  | ok lines =>
    dsimp only
    apply foldl_pres
    intro st x
    rfl

theorem lcid_defsPass (env : RFEnv) (files : List Chars) (s : RFState) :
    (defsPass env files s).1.localCopiesId = s.localCopiesId := by
  induction files generalizing s with
  | nil => rfl
  | cons f fs ih =>
    unfold defsPass
    rcases hp : parseFileForDefinitions env s f with ⟨s1, err⟩
    have h1 : s1.localCopiesId = s.localCopiesId := by
      have h := lcid_parseFileForDefinitions env s f
      rw [hp] at h
      exact h
    cases err with
    | none => simpa [h1] using ih s1
    | some e => simpa using h1

theorem lcid_parseCurrentFileForDefinitions (env : RFEnv) (s0 : RFState) :
    (parseCurrentFileForDefinitions env s0).1.localCopiesId = s0.localCopiesId := by
  unfold parseCurrentFileForDefinitions
  cases hof : s0.openFile with
  | none => rfl
  | some f =>
    dsimp only
    rcases hp : parseFileForDefinitions env
        (removeAllDefinitionsOfFile
          { s0 with privDefinitions := s0.definitions, privNameToRefs := s0.nameToRefs,
                    openFile := some f } f) f
      with ⟨s2, err⟩
    have h1 : s2.localCopiesId = s0.localCopiesId := by
      have h := lcid_parseFileForDefinitions env
        (removeAllDefinitionsOfFile
          { s0 with privDefinitions := s0.definitions, privNameToRefs := s0.nameToRefs,
                    openFile := some f } f) f
      rw [hp] at h
      exact h
    cases err with
    | none => exact h1
    | some e => exact h1

theorem lcid_findReferencesInLine (s : RFState) (line : Chars) (n : Nat) (p : Chars) :
    (findReferencesInLine s line n p).localCopiesId = s.localCopiesId := by
  unfold findReferencesInLine
  apply foldl_pres
  intro st name
  cases alookup st.privNameToRefs name <;> rfl

theorem lcid_removeReferenceOfFile (s : RFState) (force isOpen : Bool) (p : Chars) :
    (removeReferenceOfFile s force isOpen p).localCopiesId = s.localCopiesId := by
  unfold removeReferenceOfFile
  by_cases hf : (force || !isOpen) = true
  · rw [if_pos hf]
  · rw [if_neg hf]
    apply foldl_pres
    intro st q
    rfl

theorem lcid_parseFileForReferences (env : RFEnv) (s : RFState) (path : Chars)
    (added : List Chars) (force : Bool) :
    (parseFileForReferences env s path added force).1.localCopiesId = s.localCopiesId := by
  unfold parseFileForReferences
  cases hr : readLines env s path with
  | error e => rfl
  | ok lines =>
    dsimp only
    split
    · rfl
    · have hrm := lcid_removeReferenceOfFile s force (s.openFile = some path) path
      calc (lines.enum.foldl (fun st p => findReferencesInLine st p.2 (p.1 + 1) path)
              (removeReferenceOfFile s force (s.openFile = some path) path)).localCopiesId
          = (removeReferenceOfFile s force (s.openFile = some path) path).localCopiesId := by
            apply foldl_pres
            intro st q
            exact lcid_findReferencesInLine st q.2 (q.1 + 1) path
        _ = s.localCopiesId := hrm

theorem lcid_refsPass (env : RFEnv) (added : List Chars) (force : Bool)
    (files : List Chars) (s : RFState) :
    (refsPass env added force files s).1.localCopiesId = s.localCopiesId := by
  induction files generalizing s with
  | nil => rfl
  | cons f fs ih =>
    unfold refsPass
    rcases hp : parseFileForReferences env s f added force with ⟨s1, err⟩
    have h1 : s1.localCopiesId = s.localCopiesId := by
      have h := lcid_parseFileForReferences env s f added force
      rw [hp] at h
      exact h
    cases err with
    | none => simpa [h1] using ih s1
    | some e => simpa using h1

theorem lcid_cleanupReferences (s : RFState) :
    (cleanupReferences s).localCopiesId = s.localCopiesId := by
  unfold cleanupReferences
  apply foldl_pres
  intro st q
  cases alookup st.privNameToRefs q.1 <;> rfl

theorem lcid_runCore (env : RFEnv) (s0 : RFState) :
    (runCore env s0).1.localCopiesId = s0.localCopiesId := by
  unfold runCore
  cases hof : s0.openFile.isNone with
  | true =>
    rw [if_pos rfl]
    rcases hd : defsPass env (smb3Path :: env.prgFiles)
        { s0 with privDefinitions := [], privNameToRefs := [] } with ⟨s1, err⟩
    have h1 : s1.localCopiesId = s0.localCopiesId := by
      have h := lcid_defsPass env (smb3Path :: env.prgFiles)
        { s0 with privDefinitions := [], privNameToRefs := [] }
      rw [hd] at h
      exact h
    cases err with
    | some e => simpa using h1
    | none =>
      dsimp only
      rcases hrp : refsPass env [] true (smb3Path :: env.prgFiles) s1 with ⟨s2, err2⟩
      have h2 : s2.localCopiesId = s1.localCopiesId := by
        have h := lcid_refsPass env [] true (smb3Path :: env.prgFiles) s1
        rw [hrp] at h
        exact h
      cases err2 with
      | some e => simpa using h2.trans h1
      | none => simpa [lcid_cleanupReferences] using h2.trans h1
  | false =>
    rw [if_neg (by simp)]
    rcases hc : parseCurrentFileForDefinitions env s0 with ⟨s1, added, err⟩
    have h1 : s1.localCopiesId = s0.localCopiesId := by
      have h := lcid_parseCurrentFileForDefinitions env s0
      rw [hc] at h
      exact h
    cases err with
    | some e => simpa using h1
    | none =>
      dsimp only
      rcases hrp : refsPass env added false (smb3Path :: env.prgFiles) s1 with ⟨s2, err2⟩
      have h2 : s2.localCopiesId = s1.localCopiesId := by
        have h := lcid_refsPass env added false (smb3Path :: env.prgFiles) s1
        rw [hrp] at h
        exact h
      cases err2 with
      | some e => simpa using h2.trans h1
      | none => simpa [lcid_cleanupReferences] using h2.trans h1

end RefFinder

/-- A freshly constructed `ReferenceFinder`: empty published and private
dicts, an empty engine-owned local-copies dict (object id 0), no open
file. -/
def rfState0 : RefFinder.RFState :=
  ⟨[], [], [], [], [], 0, [(0, [])], 0, none⟩

def c1Env : RefFinder.RFEnv := ⟨[(chars "smb3.asm", [chars "X = $01"])], []⟩

def c1RefX : RefFinder.RefDef :=
  ⟨chars "X", [], chars "smb3.asm", 1, .UNSET, chars "X = $01"⟩

/-- C1 (code evaluation): two consecutive full `run`s of a fresh
`ReferenceFinder` over the unchanged one-file project `X = $01`.  Both
complete; the published Definition maps agree; but the published
Reference map differs: after the first run `X`'s reference set still
contains the definition site (cleanup iterated the then-empty published
definition dict `self.definitions` instead of the fresh private one),
after the second run it is empty. -/
theorem c1_run_twice_not_idempotent :
    (RefFinder.run c1Env rfState0).2 = none ∧
    (RefFinder.run c1Env (RefFinder.run c1Env rfState0).1).2 = none ∧
    RefFinder.observedRefs (RefFinder.run c1Env rfState0).1 = [(chars "X", [c1RefX])] ∧
    RefFinder.observedRefs (RefFinder.run c1Env (RefFinder.run c1Env rfState0).1).1 =
      [(chars "X", [])] ∧
    (RefFinder.run c1Env (RefFinder.run c1Env rfState0).1).1.definitions =
      (RefFinder.run c1Env rfState0).1.definitions ∧
    RefFinder.observedRefs (RefFinder.run c1Env rfState0).1 ≠
      RefFinder.observedRefs (RefFinder.run c1Env (RefFinder.run c1Env rfState0).1).1 :=
  ⟨rfl, rfl, rfl, rfl, rfl, by decide⟩

def c2EnvFull : RefFinder.RFEnv :=
  ⟨[(chars "smb3.asm", [chars "Y = $01"]), (chars "PRG/prg000.asm", [chars ""])],
   [chars "PRG/prg000.asm"]⟩

def c2EnvGone : RefFinder.RFEnv :=
  ⟨[(chars "smb3.asm", [chars "Y = $01"])], [chars "PRG/prg000.asm"]⟩

/-- The state after a successful full run, with the caller's
local-copies dict (object id 7, an emptied unsaved buffer for
`smb3.asm`) created. -/
def c2WithCaller : RefFinder.RFState :=
  let s1 := (RefFinder.run c2EnvFull rfState0).1
  { s1 with dictStore := nupsert s1.dictStore 7 [(chars "smb3.asm", [])] }

def c2Incremental : RefFinder.RFState :=
  RefFinder.runWithLocalCopies c2WithCaller 7 (some (chars "smb3.asm"))

def c2RefY : RefFinder.RefDef :=
  ⟨chars "Y", [], chars "smb3.asm", 1, .UNSET, chars "Y = $01"⟩

/-- C2 (code evaluation): an incremental run (open file `smb3.asm`,
whose unsaved buffer no longer defines `Y`) that raises while reading
`PRG/prg000.asm` — after `_parse_current_file_for_definitions` has
already popped `Y` from the PUBLISHED reference map (line 135 operates
on `self.name_to_references`, not the private copy).  The aborted run
leaves the published Reference map emptied, not "exactly unchanged";
the published Definition map is unchanged. -/
theorem c2_aborted_run_mutates_published :
    (RefFinder.run c2EnvFull rfState0).2 = none ∧
    RefFinder.observedRefs c2WithCaller = [(chars "Y", [c2RefY])] ∧
    (RefFinder.run c2EnvGone c2Incremental).2 = some "FileNotFoundError" ∧
    RefFinder.observedRefs (RefFinder.run c2EnvGone c2Incremental).1 = [] ∧
    (RefFinder.run c2EnvGone c2Incremental).1.definitions = c2WithCaller.definitions ∧
    RefFinder.observedRefs (RefFinder.run c2EnvGone c2Incremental).1 ≠
      RefFinder.observedRefs c2WithCaller :=
  ⟨rfl, rfl, rfl, rfl, rfl, by decide⟩

/-- C10: after any completed `run` set up through
`run_with_local_copies`, the caller's local-copies dict object has been
cleared in place: looking the object up by its id yields the empty
dict. -/
theorem c10_local_copies_cleared (env : RefFinder.RFEnv) (s : RefFinder.RFState)
    (cid : Nat) (opened : Option Chars)
    (h : (RefFinder.run env (RefFinder.runWithLocalCopies s cid opened)).2 = none) :
    nlookup (RefFinder.run env (RefFinder.runWithLocalCopies s cid opened)).1.dictStore cid =
      some [] := by
  unfold RefFinder.run at h ⊢
  rcases hc : RefFinder.runCore env (RefFinder.runWithLocalCopies s cid opened) with ⟨s1, err⟩
  rw [hc] at h
  cases err with
  | some e => exact Option.noConfusion h
  | none =>
    have hl : s1.localCopiesId = cid := by
      have hpres := RefFinder.lcid_runCore env (RefFinder.runWithLocalCopies s cid opened)
      rw [hc] at hpres
      exact hpres
    dsimp only [RefFinder.publishAndClear]
    rw [hl]
    exact nlookup_nupsert_self _ cid []

/-- A scenario in which a run set up via `run_with_local_copies`
completes: caller dict object id 7 holding an unsaved buffer for the
entry file. -/
def c10State : RefFinder.RFState :=
  ⟨[], [], [], [], [], 0, [(0, []), (7, [(chars "smb3.asm", [chars "X = $01"])])], 0, none⟩

/-- Witness for C10: a run that completes with caller dict id 7. -/
theorem c10_witness :
    nlookup (RefFinder.run c1Env
        (RefFinder.runWithLocalCopies c10State 7 none)).1.dictStore 7 = some [] :=
  c10_local_copies_cleared c1Env c10State 7 none rfl
